import Mathlib

/-!
Shallow embedding of the short-links service core (link repository, service
layer, cache glue and expiry sweep) for checking the natural-language
specification against the code.

Modelling choices:
* Timestamps are `Nat` (seconds); TTLs are `Int` (a TTL can be negative).
* The relational store is a `List LinkRecord`.  The `links` table declares
  BOTH `link_id` (autoincrement) and `short_code` with `primary_key=True`,
  i.e. a composite primary key, so there is no uniqueness constraint on
  `short_code` alone and an insert of a duplicate `short_code` succeeds.
  `create_link` therefore never fails.
* The Redis cache is an association list from key to a `CacheEntry`
  (a value plus the TTL it was stored with).  A cached value either
  deserializes cleanly (`CacheVal.good`) or is corrupt (`CacheVal.corrupt`,
  which `get_original_link_from_cache` treats as a miss).
* `SELECT ... WHERE short_code = c AND is_active` with `scalar_one_or_none`
  is modelled as `List.find?` (first matching row).
* Python exceptions raised by the repository (`ValueError`,
  `PermissionError`) are modelled with `Except`; the error carries the
  state at raise time, so "no mutation on denial" is expressible.
-/

/-- Row of the `links` table (db/models/links.py). -/
structure LinkRecord where
  link_id : Nat
  short_code : String
  original_url : String
  created_at : Nat
  updated_at : Option Nat
  created_by : Option String
  clicks : Nat
  last_used_at : Option Nat
  expires_at : Option Nat
  is_active : Bool
deriving Repr, DecidableEq

/-- The `LinkInDB` pydantic schema: the projection of a record that is
serialized into the cache and returned by `get_link`. -/
structure LinkInDB where
  short_code : String
  original_url : String
  created_at : Nat
  created_by : Option String
  clicks : Nat
  last_used_at : Option Nat
  expires_at : Option Nat
deriving Repr, DecidableEq

/-- A cached value: either a cleanly deserializable `LinkInDB` JSON blob or
corrupt content that fails `model_validate_json`. -/
inductive CacheVal where
  | good (link : LinkInDB)
  | corrupt
deriving Repr, DecidableEq

/-- A cache slot: the stored value together with the TTL it was set with. -/
structure CacheEntry where
  val : CacheVal
  ttl : Int
deriving Repr, DecidableEq

abbrev Cache := List (String × CacheEntry)

/-- `redis.get key`. -/
def cacheLookup (c : Cache) (k : String) : Option CacheEntry :=
  (c.find? (fun p => p.fst == k)).map Prod.snd

/-- `redis.delete key`. -/
def cacheDelete (c : Cache) (k : String) : Cache :=
  c.filter (fun p => p.fst != k)

/-- `redis.set key value ex=ttl` (replaces any previous entry). -/
def cacheSet (c : Cache) (k : String) (e : CacheEntry) : Cache :=
  (k, e) :: cacheDelete c k

abbrev Store := List LinkRecord

/-- Shared mutable state of the repository: the SQL store and the Redis
cache. -/
structure RepoState where
  store : Store
  cache : Cache
deriving Repr, DecidableEq

/-- `RedisSettings.EXPIRES_IN_SECONDS` default (core/config.py). -/
def EXPIRES_IN_SECONDS : Int := 5 * 60

/-- `LinksServiceSettings.GENERATE_SHORT_CODE_RETRIES` default. -/
def GENERATE_SHORT_CODE_RETRIES : Nat := 5

/-- Python exceptions raised by the repository layer. -/
inductive PyError where
  | valueError
  | permissionError
deriving Repr, DecidableEq

/-- `WHERE Link.short_code == code AND Link.is_active == True`. -/
def matchesActive (code : String) (r : LinkRecord) : Bool :=
  r.short_code == code && r.is_active

/-- Projection of a store row to the `LinkInDB` schema, as built field by
field in `LinksRepository.get_link`. -/
def toLinkInDB (r : LinkRecord) : LinkInDB :=
  { short_code := r.short_code
    original_url := r.original_url
    created_at := r.created_at
    created_by := r.created_by
    clicks := r.clicks
    last_used_at := r.last_used_at
    expires_at := r.expires_at }

namespace LinksRepository

/-- `LinksRepository.get_link_by_short_code`: first active row with the
code (`scalar_one_or_none`). -/
def get_link_by_short_code (store : Store) (code : String) : Option LinkRecord :=
  store.find? (matchesActive code)

/-- `LinksRepository.get_original_link_from_cache`: a corrupt cached blob is
treated as a miss. -/
def get_original_link_from_cache (cache : Cache) (code : String) : Option LinkInDB :=
  match cacheLookup cache code with
  | none => none
  | some e =>
    match e.val with
    | .good l => some l
    | .corrupt => none

/-- `LinksRepository.set_link_to_cache`: TTL is `expires_at - now` when
`expires_at` is set; a non-positive TTL deletes the existing entry instead
of storing; otherwise the configured default window is used. -/
def set_link_to_cache (now : Nat) (cache : Cache) (code : String) (link : LinkInDB) : Cache :=
  match link.expires_at with
  | some e =>
    let ttl : Int := (e : Int) - (now : Int)
    if ttl ≤ 0 then cacheDelete cache code
    else cacheSet cache code ⟨.good link, ttl⟩
  | none => cacheSet cache code ⟨.good link, EXPIRES_IN_SECONDS⟩

/-- `LinksRepository.get_link`: cache first, store on miss, repopulating the
cache on a store hit. -/
def get_link (now : Nat) (s : RepoState) (code : String) : Option LinkInDB × RepoState :=
  match get_original_link_from_cache s.cache code with
  | some l => (some l, s)
  | none =>
    match get_link_by_short_code s.store code with
    | some r =>
      let l := toLinkInDB r
      (some l, { s with cache := set_link_to_cache now s.cache code l })
    | none => (none, s)

/-- `LinksRepository.create_link`: inserts a new active row.  The composite
primary key `(link_id, short_code)` with autoincrementing `link_id` means a
duplicate `short_code` does not violate any constraint, so the insert always
succeeds. -/
def create_link (now : Nat) (s : RepoState) (code url : String)
    (created_by : Option String) (expires_at : Option Nat) : LinkRecord × RepoState :=
  let r : LinkRecord :=
    { link_id := s.store.length
      short_code := code
      original_url := url
      created_at := now
      updated_at := none
      created_by := created_by
      clicks := 0
      last_used_at := none
      expires_at := expires_at
      is_active := true }
  (r, { s with store := s.store ++ [r] })

/-- The row transformation performed by the UPDATE statement in
`LinksRepository.update_link`: `updated_at` stamped, `clicks` reset,
`original_url` only when supplied, `expires_at` always overwritten
(an explicit `None` sets NULL). -/
def applyUpdate (now : Nat) (new_original_url : Option String)
    (new_expires_at : Option Nat) (r : LinkRecord) : LinkRecord :=
  { r with
    updated_at := some now
    clicks := 0
    original_url := new_original_url.getD r.original_url
    expires_at := new_expires_at }

/-- `LinksRepository.update_link`: loads the active row, raises
`ValueError` when absent and `PermissionError` when the owner is non-null
and differs from `updated_by` (both before any mutation), then runs the
UPDATE with RETURNING and refreshes an existing cache entry. -/
def update_link (now : Nat) (s : RepoState) (code : String)
    (new_original_url : Option String) (new_expires_at : Option Nat)
    (updated_by : Option String) :
    Except (PyError × RepoState) (Option LinkRecord × RepoState) :=
  match get_link_by_short_code s.store code with
  | none => .error (.valueError, s)
  | some link =>
    if link.created_by.isSome && link.created_by != updated_by then
      .error (.permissionError, s)
    else
      let upd := applyUpdate now new_original_url new_expires_at
      let store' := s.store.map (fun r => if matchesActive code r then upd r else r)
      let updatedRows := (s.store.filter (matchesActive code)).map upd
      match updatedRows.head? with
      | some updated_link =>
        let cache' :=
          match get_original_link_from_cache s.cache code with
          | some cached =>
            set_link_to_cache now s.cache code
              { cached with
                original_url := updated_link.original_url
                expires_at := updated_link.expires_at
                clicks := updated_link.clicks }
          | none => s.cache
        .ok (some updated_link, { store := store', cache := cache' })
      | none => .ok (none, { store := store', cache := s.cache })

/-- `LinksRepository.delete_link`: loads the active row, returns `false`
when absent, raises `PermissionError` on ownership mismatch before any
mutation, otherwise hard-deletes the active rows and evicts the cache
entry. -/
def delete_link (s : RepoState) (code : String) (delete_by : Option String) :
    Except (PyError × RepoState) (Bool × RepoState) :=
  match get_link_by_short_code s.store code with
  | none => .ok (false, s)
  | some link =>
    if link.created_by.isSome && link.created_by != delete_by then
      .error (.permissionError, s)
    else
      let rowcount := (s.store.filter (matchesActive code)).length
      let store' := s.store.filter (fun r => !(matchesActive code r))
      if rowcount > 0 then
        .ok (true, { store := store', cache := cacheDelete s.cache code })
      else
        .ok (false, { store := store', cache := s.cache })

/-- `LinksRepository.get_link_stats`: goes through `get_link` (cache then
store) and raises `PermissionError` when the returned record's owner is
non-null and differs from `get_by`. -/
def get_link_stats (now : Nat) (s : RepoState) (code : String) (get_by : Option String) :
    Except (PyError × RepoState) (Option LinkInDB × RepoState) :=
  let res := get_link now s code
  match res.fst with
  | none => .ok (none, res.snd)
  | some link_dict =>
    if link_dict.created_by.isSome && link_dict.created_by != get_by then
      .error (.permissionError, res.snd)
    else
      .ok (some link_dict, res.snd)

/-- Predicate of the sweep UPDATE in `check_expired_links`: active, with a
non-null `expires_at` strictly in the past. -/
def expiredPred (now : Nat) (r : LinkRecord) : Bool :=
  r.is_active &&
    (match r.expires_at with
     | some e => e < now
     | none => false)

/-- `LinksRepository.check_expired_links`: one atomic UPDATE flipping
`is_active` and stamping `updated_at` on every matching row, returning the
flipped codes. -/
def check_expired_links (now : Nat) (s : RepoState) : List String × RepoState :=
  let codes := (s.store.filter (expiredPred now)).map (fun r => r.short_code)
  let store' := s.store.map (fun r =>
    if expiredPred now r then { r with is_active := false, updated_at := some now } else r)
  (codes, { s with store := store' })

/-- `LinksRepository.get_expired_links`: all inactive rows. -/
def get_expired_links (s : RepoState) : List LinkRecord :=
  s.store.filter (fun r => !r.is_active)

end LinksRepository

/-- One iteration of the `clean_up_expired_links` background task:
deactivate expired rows, then delete each returned code from the cache. -/
def clean_up_expired_links_pass (now : Nat) (s : RepoState) : RepoState :=
  let res := LinksRepository.check_expired_links now s
  { res.snd with cache := res.fst.foldl cacheDelete res.snd.cache }

/-- The HTTPException subclasses of api/v1/exceptions/links.py, with their
`detail` payloads. -/
inductive ServiceExc where
  | shortLinkNotFound (detail : String)
  | invalidShortLink (detail : String)
  | shortLinkAlreadyExists (detail : String)
  | linkPermissionDenied (detail : String)
deriving Repr, DecidableEq

/-- HTTP status code carried by each exception class. -/
def ServiceExc.status : ServiceExc → Nat
  | .shortLinkNotFound _ => 404
  | .invalidShortLink _ => 400
  | .shortLinkAlreadyExists _ => 400
  | .linkPermissionDenied _ => 403

/-- Response schema `LinkCreateResponse`. -/
structure LinkCreateResponse where
  short_code : String
  expires_at : Option Nat
deriving Repr, DecidableEq

/-- Detail string of the error raised after exhausting the random
generation retries in `LinksService.create_short_code`. -/
def retryExhaustedDetail : String :=
  "Failed to create short link after multiple attempts."

/-- Detail string of the plain already-exists error raised for a colliding
custom alias in `LinksService.create_custom_short_code`. -/
def customExistsDetail (alias_ : String) : String :=
  "Custom short link " ++ alias_ ++ " already exists."

namespace LinksService

/-- `LinksService.create_custom_short_code`: pre-checks the alias through
`get_link` and raises already-exists on a hit, otherwise inserts.  The
surrounding `except ShortLinkAlreadyExistsException` around the insert can
never fire: `create_link` raises no such exception (the store accepts
duplicate short codes, see `LinksRepository.create_link`). -/
def create_custom_short_code (now : Nat) (s : RepoState)
    (original_url custom_alias : String) (expires_at : Option Nat)
    (created_by : Option String) :
    Except (ServiceExc × RepoState) (LinkCreateResponse × RepoState) :=
  let res := LinksRepository.get_link now s custom_alias
  match res.fst with
  | some _ =>
    .error (.shortLinkAlreadyExists (customExistsDetail custom_alias), res.snd)
  | none =>
    let created := LinksRepository.create_link now res.snd custom_alias original_url created_by expires_at
    .ok ({ short_code := custom_alias, expires_at := expires_at }, created.snd)

/-- The body of the retry `for` loop in `LinksService.create_short_code`:
`codes` is the stream of generated candidate codes, one consumed per
attempt; reserved codes and codes found by `get_link` burn an attempt; the
loop exhausting raises an already-exists exception with the retry-exhausted
detail. -/
def create_short_code_loop (now : Nat) (s : RepoState) (original_url : String)
    (expires_at : Option Nat) (created_by : Option String) :
    List String → Except (ServiceExc × RepoState) (LinkCreateResponse × RepoState)
  | [] => .error (.shortLinkAlreadyExists retryExhaustedDetail, s)
  | code :: rest =>
    if code == "search" || code == "expired" then
      create_short_code_loop now s original_url expires_at created_by rest
    else
      let res := LinksRepository.get_link now s code
      match res.fst with
      | some _ => create_short_code_loop now res.snd original_url expires_at created_by rest
      | none =>
        let created := LinksRepository.create_link now res.snd code original_url created_by expires_at
        .ok ({ short_code := code, expires_at := expires_at }, created.snd)

/-- `LinksService.create_short_code`: dispatches to the custom-alias path
when a (truthy, i.e. non-empty) alias is supplied, otherwise runs the
random-generation loop for `GENERATE_SHORT_CODE_RETRIES` attempts. -/
def create_short_code (now : Nat) (s : RepoState) (original_url : String)
    (custom_alias : Option String) (expires_at : Option Nat)
    (created_by : Option String) (generated : List String) :
    Except (ServiceExc × RepoState) (LinkCreateResponse × RepoState) :=
  match custom_alias with
  | some a =>
    if a != "" then create_custom_short_code now s original_url a expires_at created_by
    else
      create_short_code_loop now s original_url expires_at created_by
        (generated.take GENERATE_SHORT_CODE_RETRIES)
  | none =>
    create_short_code_loop now s original_url expires_at created_by
      (generated.take GENERATE_SHORT_CODE_RETRIES)

/-- `LinksService.set_link_to_cache`: TTL is the default window when
`expires_at` is falsy, else `expires_at - now`; on a non-positive TTL the
method merely returns ("Not setting to cache") without deleting any
existing entry. -/
def set_link_to_cache (now : Nat) (cache : Cache) (code : String) (link : LinkInDB) : Cache :=
  let expires : Int :=
    match link.expires_at with
    | none => EXPIRES_IN_SECONDS
    | some e => (e : Int) - (now : Int)
  if expires ≤ 0 then cache
  else cacheSet cache code ⟨.good link, expires⟩

/-- `LinksService.update_link`: pre-loads through `get_link`, calls the
repository update, maps `PermissionError` to 403 and `ValueError` to 404,
and on success re-writes the cache from the PRE-update `existing_link`
dictionary, overlaying only a truthy new URL and a truthy new expiry (so
the cached `clicks` is the pre-update value and a cleared expiry stays). -/
def update_link (now : Nat) (s : RepoState) (code : String)
    (new_original_url : Option String) (new_expires_at : Option Nat)
    (updated_by : String) :
    Except (ServiceExc × RepoState) RepoState :=
  let res := LinksRepository.get_link now s code
  match res.fst with
  | none =>
    .error (.shortLinkNotFound ("Short link " ++ code ++ " not found."), res.snd)
  | some existing =>
    match LinksRepository.update_link now res.snd code new_original_url new_expires_at (some updated_by) with
    | .error (.permissionError, s2) =>
      .error (.linkPermissionDenied ("User " ++ updated_by ++ " is not authorized to update this link."), s2)
    | .error (.valueError, s2) =>
      .error (.shortLinkNotFound ("Short link " ++ code ++ " not found."), s2)
    | .ok (_, s2) =>
      let ex1 :=
        match new_original_url with
        | some u => if u == "" then existing else { existing with original_url := u }
        | none => existing
      let ex2 :=
        match new_expires_at with
        | some t => { ex1 with expires_at := some t }
        | none => ex1
      .ok { s2 with cache := set_link_to_cache now s2.cache code ex2 }

/-- `LinksService.delete_link`: pre-loads through `get_link`, then calls the
repository delete inside a blanket `except Exception` handler that re-raises
EVERY failure (a `PermissionError` included) as a 404
`ShortLinkNotFoundException`; on success it evicts the cache entry. -/
def delete_link (now : Nat) (s : RepoState) (code : String) (delete_by : String) :
    Except (ServiceExc × RepoState) RepoState :=
  let res := LinksRepository.get_link now s code
  match res.fst with
  | none =>
    .error (.shortLinkNotFound ("Short link " ++ code ++ " not found."), res.snd)
  | some _ =>
    match LinksRepository.delete_link res.snd code (some delete_by) with
    | .error (_, s2) =>
      .error (.shortLinkNotFound ("Failed to delete short link " ++ code ++ "."), s2)
    | .ok (_, s2) =>
      .ok { s2 with cache := cacheDelete s2.cache code }

end LinksService

/-! ### Helper lemmas about the list-based store and cache -/

theorem find?_eq_filter_head? (p : α → Bool) :
    ∀ l : List α, l.find? p = (l.filter p).head? := by
  intro l
  induction l with
  | nil => rfl
  | cons a l ih =>
    by_cases h : p a = true
    · rw [List.find?_cons_of_pos _ h, List.filter_cons_of_pos h]
      rfl
    · simp only [Bool.not_eq_true] at h
      rw [List.find?_cons_of_neg, List.filter_cons_of_neg, ih]
      · simp [h]
      · simp [h]

theorem head?_map_eq (f : α → β) (l : List α) :
    (l.map f).head? = l.head?.map f := by
  cases l <;> rfl

theorem find?_update_map (p : α → Bool) (f : α → α)
    (hf : ∀ a, p a = true → p (f a) = true) :
    ∀ l : List α,
      (l.map (fun a => if p a then f a else a)).find? p = (l.find? p).map f := by
  intro l
  induction l with
  | nil => rfl
  | cons a l ih =>
    by_cases h : p a = true
    · simp [List.find?_cons, h, hf a h]
    · simp only [Bool.not_eq_true] at h
      simp [List.find?_cons, h, ih]

theorem cacheLookup_none_iff (c : Cache) (k : String) :
    cacheLookup c k = none ↔ c.find? (fun p => p.fst == k) = none := by
  unfold cacheLookup
  cases c.find? (fun p => p.fst == k) <;> simp

theorem cacheLookup_set_self (c : Cache) (k : String) (e : CacheEntry) :
    cacheLookup (cacheSet c k e) k = some e := by
  unfold cacheLookup cacheSet
  rw [List.find?_cons_of_pos]
  · rfl
  · simp

theorem cacheLookup_delete_self (c : Cache) (k : String) :
    cacheLookup (cacheDelete c k) k = none := by
  rw [cacheLookup_none_iff]
  rw [List.find?_eq_none]
  intro x hx
  have hq := List.of_mem_filter hx
  simp only [bne_iff_ne, ne_eq] at hq
  simp [hq]

theorem cacheLookup_delete_of_none (c : Cache) (k k' : String)
    (h : cacheLookup c k = none) : cacheLookup (cacheDelete c k') k = none := by
  rw [cacheLookup_none_iff] at h ⊢
  rw [List.find?_eq_none] at h ⊢
  intro x hx
  exact h x (List.mem_of_mem_filter hx)

theorem cacheLookup_foldl_delete_of_none (k : String) :
    ∀ (codes : List String) (c : Cache), cacheLookup c k = none →
      cacheLookup (codes.foldl cacheDelete c) k = none := by
  intro codes
  induction codes with
  | nil => intro c h; simpa using h
  | cons a rest ih =>
    intro c h
    simp only [List.foldl]
    exact ih _ (cacheLookup_delete_of_none c k a h)

theorem cacheLookup_foldl_delete_mem (k : String) :
    ∀ (codes : List String) (c : Cache), k ∈ codes →
      cacheLookup (codes.foldl cacheDelete c) k = none := by
  intro codes
  induction codes with
  | nil => intro c h; cases h
  | cons a rest ih =>
    intro c h
    simp only [List.foldl]
    rcases List.mem_cons.mp h with h1 | h1
    · subst h1
      exact cacheLookup_foldl_delete_of_none k rest _ (cacheLookup_delete_self c k)
    · exact ih _ h1

theorem filter_head?_of_find? (p : α → Bool) (l : List α) (a : α)
    (h : l.find? p = some a) : (l.filter p).head? = some a := by
  rw [← find?_eq_filter_head?]; exact h

theorem filter_length_pos_of_find? (p : α → Bool) (l : List α) (a : α)
    (h : l.find? p = some a) : 0 < (l.filter p).length := by
  have hh := filter_head?_of_find? p l a h
  cases hl : l.filter p with
  | nil => rw [hl] at hh; cases hh
  | cons x xs => simp [hl]

/-- Shape of a successful `update_link` run: the addressed row exists and
the ownership check passes. -/
theorem update_link_ok (now : Nat) (s : RepoState) (code : String)
    (newUrl : Option String) (newExp : Option Nat) (by_ : Option String)
    (r : LinkRecord)
    (hfind : LinksRepository.get_link_by_short_code s.store code = some r)
    (hperm : (r.created_by.isSome && r.created_by != by_) = false) :
    LinksRepository.update_link now s code newUrl newExp by_ =
      .ok (some (LinksRepository.applyUpdate now newUrl newExp r),
        { store := s.store.map (fun x =>
            if matchesActive code x then LinksRepository.applyUpdate now newUrl newExp x else x)
          cache :=
            match LinksRepository.get_original_link_from_cache s.cache code with
            | some cached =>
              LinksRepository.set_link_to_cache now s.cache code
                { cached with
                  original_url := (LinksRepository.applyUpdate now newUrl newExp r).original_url
                  expires_at := (LinksRepository.applyUpdate now newUrl newExp r).expires_at
                  clicks := (LinksRepository.applyUpdate now newUrl newExp r).clicks }
            | none => s.cache }) := by
  have hrows : ((s.store.filter (matchesActive code)).map
      (LinksRepository.applyUpdate now newUrl newExp)).head?
      = some (LinksRepository.applyUpdate now newUrl newExp r) := by
    rw [head?_map_eq, filter_head?_of_find? _ _ _ hfind]
    rfl
  simp only [LinksRepository.update_link, hfind, hperm, hrows, Bool.false_eq_true,
    if_false]

/-- Shape of a successful `delete_link` run. -/
theorem delete_link_ok (s : RepoState) (code : String) (by_ : Option String)
    (r : LinkRecord)
    (hfind : LinksRepository.get_link_by_short_code s.store code = some r)
    (hperm : (r.created_by.isSome && r.created_by != by_) = false) :
    LinksRepository.delete_link s code by_ =
      .ok (true,
        { store := s.store.filter (fun x => !(matchesActive code x))
          cache := cacheDelete s.cache code }) := by
  have hpos := filter_length_pos_of_find? (matchesActive code) s.store r hfind
  simp only [LinksRepository.delete_link, hfind, hperm, Bool.false_eq_true, if_false]
  simp [hpos]

/-! ### Claims -/

/-- Claim C1: for every stored link record with non-null `created_by = U`
that the operation addresses (the active-row lookup for its code finds it),
`update_link`, `delete_link` and `get_link_stats` called with a principal
`V ≠ U` raise `PermissionError`, and the check happens strictly before any
mutation: update and delete leave the whole state untouched, and stats
leaves the store row set (hence every record's fields) untouched.  The
cache-coherence hypothesis pins any cleanly-deserializing cached entry for
the code to the same owner, since `get_link_stats` reads through the
cache. -/
theorem C1_ownership_gate_repo (now : Nat) (s : RepoState) (code u v : String)
    (newUrl : Option String) (newExp : Option Nat) (r : LinkRecord)
    (hfind : LinksRepository.get_link_by_short_code s.store code = some r)
    (hown : r.created_by = some u)
    (hne : v ≠ u)
    (hcache : ∀ l, LinksRepository.get_original_link_from_cache s.cache code = some l →
      l.created_by = some u) :
    LinksRepository.update_link now s code newUrl newExp (some v) =
      .error (.permissionError, s) ∧
    LinksRepository.delete_link s code (some v) = .error (.permissionError, s) ∧
    ∃ s', LinksRepository.get_link_stats now s code (some v) =
      .error (.permissionError, s') ∧ s'.store = s.store := by
  have huv : u ≠ v := fun h => hne h.symm
  have hcond : (r.created_by.isSome && r.created_by != some v) = true := by
    simp [hown, bne_iff_ne, huv]
  refine ⟨?_, ?_, ?_⟩
  · simp [LinksRepository.update_link, hfind, hcond]
  · simp [LinksRepository.delete_link, hfind, hcond]
  · cases hc : LinksRepository.get_original_link_from_cache s.cache code with
    | some l =>
      refine ⟨s, ?_, rfl⟩
      have hl := hcache l hc
      simp [LinksRepository.get_link_stats, LinksRepository.get_link, hc, hl,
        bne_iff_ne, huv]
    | none =>
      refine ⟨{ s with cache := LinksRepository.set_link_to_cache now s.cache code (toLinkInDB r) }, ?_, rfl⟩
      simp [LinksRepository.get_link_stats, LinksRepository.get_link, hc, hfind,
        toLinkInDB, hown, bne_iff_ne, huv]

/-- Record used by the C1 witness: an active link owned by `"alice"`. -/
def rW1 : LinkRecord :=
  { link_id := 0, short_code := "abc", original_url := "https://a.example/"
    created_at := 10, updated_at := none, created_by := some "alice"
    clicks := 3, last_used_at := none, expires_at := none, is_active := true }

/-- State used by the C1 witness. -/
def sW1 : RepoState := { store := [rW1], cache := [] }

/-- Witness for C1: concrete denial of `"bob"` on `"alice"`'s link. -/
theorem C1_ownership_gate_repo_witness :
    LinksRepository.update_link 50 sW1 "abc" none none (some "bob") =
      .error (.permissionError, sW1) ∧
    LinksRepository.delete_link sW1 "abc" (some "bob") = .error (.permissionError, sW1) ∧
    ∃ s', LinksRepository.get_link_stats 50 sW1 "abc" (some "bob") =
      .error (.permissionError, s') ∧ s'.store = sW1.store := by
  exact C1_ownership_gate_repo 50 sW1 "abc" "alice" "bob" none none rW1
    (by decide) (by decide) (by decide)
    (by intro l h; simp [LinksRepository.get_original_link_from_cache, cacheLookup, sW1] at h)

/-- Claim C10: for a record with `created_by = null` the repository skips
the ownership check entirely: `update_link`, `delete_link` and
`get_link_stats` succeed for every principal, including an absent (`none`)
principal, and never raise permission-denied.  The cache-coherence
hypothesis pins any cleanly-deserializing cached entry for the code to a
null owner, since `get_link_stats` reads through the cache. -/
theorem C10_anonymous_owner_no_restriction (now : Nat) (s : RepoState) (code : String)
    (newUrl : Option String) (newExp : Option Nat) (p : Option String) (r : LinkRecord)
    (hfind : LinksRepository.get_link_by_short_code s.store code = some r)
    (hown : r.created_by = none)
    (hcache : ∀ l, LinksRepository.get_original_link_from_cache s.cache code = some l →
      l.created_by = none) :
    (∃ x, LinksRepository.update_link now s code newUrl newExp p = .ok x ∧
      x.fst = some (LinksRepository.applyUpdate now newUrl newExp r)) ∧
    (∃ s', LinksRepository.delete_link s code p = .ok (true, s')) ∧
    (∃ l s', LinksRepository.get_link_stats now s code p = .ok (some l, s')) := by
  have hperm : (r.created_by.isSome && r.created_by != p) = false := by
    simp [hown]
  refine ⟨⟨_, update_link_ok now s code newUrl newExp p r hfind hperm, rfl⟩,
    ⟨_, delete_link_ok s code p r hfind hperm⟩, ?_⟩
  cases hc : LinksRepository.get_original_link_from_cache s.cache code with
  | some l =>
    have hl := hcache l hc
    exact ⟨l, s, by simp [LinksRepository.get_link_stats, LinksRepository.get_link, hc, hl]⟩
  | none =>
    refine ⟨toLinkInDB r,
      { s with cache := LinksRepository.set_link_to_cache now s.cache code (toLinkInDB r) }, ?_⟩
    simp [LinksRepository.get_link_stats, LinksRepository.get_link, hc, hfind,
      toLinkInDB, hown]

/-- Claim C2: `get_link` consults the cache first; a present, cleanly
deserializing entry is returned with no store access and no cache write;
on a miss the store is queried for an active record with the code, and on a
store hit the cache is populated with the record's projection (through
`set_link_to_cache`) and the projection is returned, else `none` is
returned with the state untouched. -/
theorem C2_get_link_read_through (now : Nat) (s : RepoState) (code : String) :
    (∀ l, LinksRepository.get_original_link_from_cache s.cache code = some l →
      LinksRepository.get_link now s code = (some l, s)) ∧
    (LinksRepository.get_original_link_from_cache s.cache code = none →
      (∀ r, LinksRepository.get_link_by_short_code s.store code = some r →
        LinksRepository.get_link now s code =
          (some (toLinkInDB r),
            { s with cache := LinksRepository.set_link_to_cache now s.cache code (toLinkInDB r) })) ∧
      (LinksRepository.get_link_by_short_code s.store code = none →
        LinksRepository.get_link now s code = (none, s))) := by
  refine ⟨?_, ?_⟩
  · intro l hl
    simp [LinksRepository.get_link, hl]
  · intro hc
    refine ⟨?_, ?_⟩
    · intro r hr
      simp [LinksRepository.get_link, hc, hr]
    · intro hr
      simp [LinksRepository.get_link, hc, hr]

/-- Record used for C3: an active link owned by `"alice"`. -/
def rC3 : LinkRecord :=
  { link_id := 0, short_code := "abc", original_url := "https://a.example/"
    created_at := 10, updated_at := none, created_by := some "alice"
    clicks := 0, last_used_at := none, expires_at := none, is_active := true }

/-- State used for C3. -/
def sC3 : RepoState := { store := [rC3], cache := [] }

/-- Claim C3 (code bug): the repository's `delete_link` raises
`PermissionError` when `"bob"` deletes `"alice"`'s link, but the service's
`delete_link` catches it in a blanket `except Exception` handler and
re-raises a 404 `ShortLinkNotFoundException` — not the 403
`LinkPermissionDeniedException` that the spec (and the repository's own
test `test_delete_other_user_link`, which asserts status 403) require.
The error state's cache differs from `sC3` only by the read-through
population performed by the preceding `get_link`. -/
theorem C3_delete_permission_swallowed_to_not_found :
    LinksRepository.delete_link sC3 "abc" (some "bob") = .error (.permissionError, sC3) ∧
    LinksService.delete_link 50 sC3 "abc" "bob" =
      .error (.shortLinkNotFound "Failed to delete short link abc.",
        { sC3 with cache := LinksRepository.set_link_to_cache 50 sC3.cache "abc" (toLinkInDB rC3) }) ∧
    (ServiceExc.shortLinkNotFound "Failed to delete short link abc.").status = 404 := by
  refine ⟨by rfl, by rfl, by rfl⟩

/-- Record used for C6: an active link owned by `"alice"` with an expiry
set. -/
def rC6 : LinkRecord :=
  { link_id := 0, short_code := "abc", original_url := "https://a.example/"
    created_at := 10, updated_at := none, created_by := some "alice"
    clicks := 4, last_used_at := none, expires_at := some 100, is_active := true }

/-- State used for C6. -/
def sC6 : RepoState := { store := [rC6], cache := [] }

/-- Counterexample to C6 as stated: an owner update that supplies neither a
new URL nor a new expiry clears `expires_at` (the repository sets it to
NULL whenever `new_expires_at` is `None`), so the record's `expires_at`
does NOT stay unchanged when not supplied. -/
theorem C6_counterexample_expiry_cleared :
    LinksRepository.update_link 50 sC6 "abc" none none (some "alice") =
      .ok (some { rC6 with updated_at := some 50, clicks := 0, expires_at := none },
        { store := [{ rC6 with updated_at := some 50, clicks := 0, expires_at := none }]
          cache := [] }) ∧
    rC6.expires_at = some 100 ∧
    ({ rC6 with updated_at := some 50, clicks := 0, expires_at := none } : LinkRecord).expires_at = none := by
  refine ⟨by rfl, by rfl, by rfl⟩

/-- Claim C6 as amended: a successful `update_link` always overwrites
`expires_at` — to the supplied value when given and to NULL when not (the
repository cannot distinguish "not supplied" from an explicit null) — while
`original_url` is unchanged when not supplied, and `short_code`,
`created_at`, `created_by`, `last_used_at` and `is_active` are unchanged by
every update; rows not addressed by the update are untouched. -/
theorem C6_amended_update_frame (now : Nat) (s : RepoState) (code : String)
    (newUrl : Option String) (newExp : Option Nat) (by_ : Option String)
    (r : LinkRecord)
    (hfind : LinksRepository.get_link_by_short_code s.store code = some r)
    (hperm : (r.created_by.isSome && r.created_by != by_) = false) :
    ∃ s', LinksRepository.update_link now s code newUrl newExp by_ =
        .ok (some (LinksRepository.applyUpdate now newUrl newExp r), s') ∧
      (LinksRepository.applyUpdate now newUrl newExp r).expires_at = newExp ∧
      (newUrl = none →
        (LinksRepository.applyUpdate now newUrl newExp r).original_url = r.original_url) ∧
      (∀ u, newUrl = some u →
        (LinksRepository.applyUpdate now newUrl newExp r).original_url = u) ∧
      (LinksRepository.applyUpdate now newUrl newExp r).short_code = r.short_code ∧
      (LinksRepository.applyUpdate now newUrl newExp r).created_at = r.created_at ∧
      (LinksRepository.applyUpdate now newUrl newExp r).created_by = r.created_by ∧
      (LinksRepository.applyUpdate now newUrl newExp r).last_used_at = r.last_used_at ∧
      (LinksRepository.applyUpdate now newUrl newExp r).is_active = r.is_active ∧
      (LinksRepository.applyUpdate now newUrl newExp r).updated_at = some now ∧
      (LinksRepository.applyUpdate now newUrl newExp r).clicks = 0 ∧
      (∀ q, q ∈ s.store → matchesActive code q = false → q ∈ s'.store) := by
  refine ⟨_, update_link_ok now s code newUrl newExp by_ r hfind hperm,
    rfl, ?_, ?_, rfl, rfl, rfl, rfl, rfl, rfl, rfl, ?_⟩
  · intro h
    simp [LinksRepository.applyUpdate, h]
  · intro u h
    simp [LinksRepository.applyUpdate, h]
  · intro q hq hm
    exact List.mem_map.mpr ⟨q, hq, by simp [hm]⟩

/-- Witness for the amended C6 at a concrete update that clears the
expiry. -/
theorem C6_amended_update_frame_witness :
    ∃ s', LinksRepository.update_link 50 sC6 "abc" none none (some "alice") =
        .ok (some (LinksRepository.applyUpdate 50 none none rC6), s') ∧
      (LinksRepository.applyUpdate 50 none none rC6).expires_at = none ∧
      ((none : Option String) = none →
        (LinksRepository.applyUpdate 50 none none rC6).original_url = rC6.original_url) ∧
      (∀ u, (none : Option String) = some u →
        (LinksRepository.applyUpdate 50 none none rC6).original_url = u) ∧
      (LinksRepository.applyUpdate 50 none none rC6).short_code = rC6.short_code ∧
      (LinksRepository.applyUpdate 50 none none rC6).created_at = rC6.created_at ∧
      (LinksRepository.applyUpdate 50 none none rC6).created_by = rC6.created_by ∧
      (LinksRepository.applyUpdate 50 none none rC6).last_used_at = rC6.last_used_at ∧
      (LinksRepository.applyUpdate 50 none none rC6).is_active = rC6.is_active ∧
      (LinksRepository.applyUpdate 50 none none rC6).updated_at = some 50 ∧
      (LinksRepository.applyUpdate 50 none none rC6).clicks = 0 ∧
      (∀ q, q ∈ sC6.store → matchesActive "abc" q = false → q ∈ s'.store) := by
  exact C6_amended_update_frame 50 sC6 "abc" none none (some "alice") rC6
    (by decide) (by decide)

/-- Claim C8: `check_expired_links` flips `is_active` to false and stamps
`updated_at` for exactly the active records with a non-null `expires_at` in
the past, returns exactly the flipped codes, leaves the other records
untouched; and after one pass of the sweeper loop (which evicts every
returned code) the flipped record's code is absent from the cache and the
flipped record appears in the expired-links listing. -/
theorem C8_expired_sweep (now : Nat) (s : RepoState) :
    (∀ c, c ∈ (LinksRepository.check_expired_links now s).fst ↔
      ∃ r, r ∈ s.store ∧ LinksRepository.expiredPred now r = true ∧ r.short_code = c) ∧
    (∀ r, r ∈ s.store → LinksRepository.expiredPred now r = true →
      { r with is_active := false, updated_at := some now } ∈
        (LinksRepository.check_expired_links now s).snd.store) ∧
    (∀ r, r ∈ s.store → LinksRepository.expiredPred now r = false →
      r ∈ (LinksRepository.check_expired_links now s).snd.store) ∧
    (∀ r, r ∈ s.store → LinksRepository.expiredPred now r = true →
      cacheLookup (clean_up_expired_links_pass now s).cache r.short_code = none ∧
      { r with is_active := false, updated_at := some now } ∈
        LinksRepository.get_expired_links (clean_up_expired_links_pass now s)) := by
  refine ⟨?_, ?_, ?_, ?_⟩
  · intro c
    simp [LinksRepository.check_expired_links, List.mem_map, List.mem_filter, and_assoc]
  · intro r hr hp
    exact List.mem_map.mpr ⟨r, hr, by simp [hp]⟩
  · intro r hr hp
    exact List.mem_map.mpr ⟨r, hr, by simp [hp]⟩
  · intro r hr hp
    constructor
    · have hmem : r.short_code ∈ (LinksRepository.check_expired_links now s).fst := by
        simp only [LinksRepository.check_expired_links]
        exact List.mem_map.mpr ⟨r, List.mem_filter.mpr ⟨hr, hp⟩, rfl⟩
      exact cacheLookup_foldl_delete_mem r.short_code _ _ hmem
    · have hmem : { r with is_active := false, updated_at := some now } ∈
          (clean_up_expired_links_pass now s).store :=
        List.mem_map.mpr ⟨r, hr, by simp [hp]⟩
      exact List.mem_filter.mpr ⟨hmem, by simp⟩

/-- Expired record used by the C8 witness. -/
def rW8 : LinkRecord :=
  { link_id := 0, short_code := "exp1", original_url := "https://a.example/"
    created_at := 1, updated_at := none, created_by := some "alice"
    clicks := 1, last_used_at := none, expires_at := some 40, is_active := true }

/-- Fresh (non-expired) record used by the C8 witness. -/
def rW8b : LinkRecord :=
  { link_id := 1, short_code := "live1", original_url := "https://b.example/"
    created_at := 2, updated_at := none, created_by := none
    clicks := 0, last_used_at := none, expires_at := some 500, is_active := true }

/-- State used by the C8 witness: the expired record is also cached. -/
def sW8 : RepoState :=
  { store := [rW8, rW8b]
    cache := [("exp1", ⟨.good (toLinkInDB rW8), 30⟩)] }

/-- Witness for C8 at time 100: `"exp1"` (expired at 40) is flipped,
returned, evicted from the cache and listed as expired; `"live1"` is left
alone. -/
theorem C8_expired_sweep_witness :
    ("exp1" ∈ (LinksRepository.check_expired_links 100 sW8).fst ↔
      ∃ r, r ∈ sW8.store ∧ LinksRepository.expiredPred 100 r = true ∧ r.short_code = "exp1") ∧
    { rW8 with is_active := false, updated_at := some 100 } ∈
      (LinksRepository.check_expired_links 100 sW8).snd.store ∧
    rW8b ∈ (LinksRepository.check_expired_links 100 sW8).snd.store ∧
    cacheLookup (clean_up_expired_links_pass 100 sW8).cache rW8.short_code = none ∧
    { rW8 with is_active := false, updated_at := some 100 } ∈
      LinksRepository.get_expired_links (clean_up_expired_links_pass 100 sW8) := by
  have h := C8_expired_sweep 100 sW8
  have h4 := h.2.2.2 rW8 (by simp [sW8]) (by decide)
  exact ⟨h.1 "exp1", h.2.1 rW8 (by simp [sW8]) (by decide),
    h.2.2.1 rW8b (by simp [sW8]) (by decide), h4.1, h4.2⟩

/-- Projection used for C9: a link whose expiry (50) is already past at
time 100. -/
def lC9 : LinkInDB :=
  { short_code := "abc", original_url := "https://a.example/"
    created_at := 1, created_by := none, clicks := 1
    last_used_at := none, expires_at := some 50 }

/-- Cache used for C9: an entry for `"abc"` already exists. -/
def cC9 : Cache := [("abc", ⟨.good lC9, 77⟩)]

/-- Counterexample to C9 as stated: writing a link whose computed TTL is
non-positive through the SERVICE-level `set_link_to_cache` merely skips the
write — the pre-existing entry for the code is left in place, not actively
deleted (only the repository-level `set_link_to_cache` deletes). -/
theorem C9_counterexample_service_skips :
    LinksService.set_link_to_cache 100 cC9 "abc" lC9 = cC9 ∧
    cacheLookup cC9 "abc" = some ⟨.good lC9, 77⟩ := by
  refine ⟨by rfl, by rfl⟩

/-- Claim C9 as amended: for both cache-write paths the TTL is
`expires_at - now` when the expiry is set and the configured default window
otherwise; on a non-positive computed TTL the REPOSITORY-level
`set_link_to_cache` actively deletes the existing entry, while the
SERVICE-level `set_link_to_cache` merely skips, leaving the cache (and any
existing entry) unchanged. -/
theorem C9_amended_cache_ttl (now : Nat) (cache : Cache) (code : String) (link : LinkInDB) :
    (∀ e, link.expires_at = some e → (e : Int) - (now : Int) ≤ 0 →
      LinksRepository.set_link_to_cache now cache code link = cacheDelete cache code ∧
      cacheLookup (LinksRepository.set_link_to_cache now cache code link) code = none ∧
      LinksService.set_link_to_cache now cache code link = cache) ∧
    (∀ e, link.expires_at = some e → 0 < (e : Int) - (now : Int) →
      cacheLookup (LinksRepository.set_link_to_cache now cache code link) code =
        some ⟨.good link, (e : Int) - (now : Int)⟩ ∧
      cacheLookup (LinksService.set_link_to_cache now cache code link) code =
        some ⟨.good link, (e : Int) - (now : Int)⟩) ∧
    (link.expires_at = none →
      cacheLookup (LinksRepository.set_link_to_cache now cache code link) code =
        some ⟨.good link, EXPIRES_IN_SECONDS⟩ ∧
      cacheLookup (LinksService.set_link_to_cache now cache code link) code =
        some ⟨.good link, EXPIRES_IN_SECONDS⟩) := by
  refine ⟨?_, ?_, ?_⟩
  · intro e he hle
    have hrepo : LinksRepository.set_link_to_cache now cache code link =
        cacheDelete cache code := by
      simp only [LinksRepository.set_link_to_cache, he]
      rw [if_pos hle]
    refine ⟨hrepo, by rw [hrepo]; exact cacheLookup_delete_self cache code, ?_⟩
    simp only [LinksService.set_link_to_cache, he]
    rw [if_pos hle]
  · intro e he hlt
    constructor
    · simp only [LinksRepository.set_link_to_cache, he]
      rw [if_neg (by omega)]
      exact cacheLookup_set_self cache code _
    · simp only [LinksService.set_link_to_cache, he]
      rw [if_neg (by omega)]
      exact cacheLookup_set_self cache code _
  · intro he
    constructor
    · simp only [LinksRepository.set_link_to_cache, he]
      exact cacheLookup_set_self cache code _
    · simp only [LinksService.set_link_to_cache, he]
      rw [if_neg (by decide)]
      exact cacheLookup_set_self cache code _

/-- Projection with a future expiry used by the C9 witness. -/
def lC9b : LinkInDB := { lC9 with expires_at := some 400 }

/-- Projection with no expiry used by the C9 witness. -/
def lC9c : LinkInDB := { lC9 with expires_at := none }

/-- Witness for the amended C9 at time 100: past expiry (50) deletes at the
repository and skips at the service; future expiry (400) stores with
TTL 300; no expiry stores with the default window. -/
theorem C9_amended_cache_ttl_witness :
    (LinksRepository.set_link_to_cache 100 cC9 "abc" lC9 = cacheDelete cC9 "abc" ∧
      cacheLookup (LinksRepository.set_link_to_cache 100 cC9 "abc" lC9) "abc" = none ∧
      LinksService.set_link_to_cache 100 cC9 "abc" lC9 = cC9) ∧
    (cacheLookup (LinksRepository.set_link_to_cache 100 cC9 "abc" lC9b) "abc" =
        some ⟨.good lC9b, 300⟩ ∧
      cacheLookup (LinksService.set_link_to_cache 100 cC9 "abc" lC9b) "abc" =
        some ⟨.good lC9b, 300⟩) ∧
    (cacheLookup (LinksRepository.set_link_to_cache 100 cC9 "abc" lC9c) "abc" =
        some ⟨.good lC9c, EXPIRES_IN_SECONDS⟩ ∧
      cacheLookup (LinksService.set_link_to_cache 100 cC9 "abc" lC9c) "abc" =
        some ⟨.good lC9c, EXPIRES_IN_SECONDS⟩) := by
  refine ⟨(C9_amended_cache_ttl 100 cC9 "abc" lC9).1 50 (by decide) (by decide),
    ?_, (C9_amended_cache_ttl 100 cC9 "abc" lC9c).2.2 (by decide)⟩
  exact (C9_amended_cache_ttl 100 cC9 "abc" lC9b).2.1 400 (by decide) (by decide)

/-- The retry-exhausted detail differs from the plain custom-alias
already-exists detail for every alias. -/
theorem retry_detail_ne_custom_detail (a : String) :
    retryExhaustedDetail ≠ customExistsDetail a := by
  intro h
  have h5 : retryExhaustedDetail.data.head? = some 'F' := rfl
  rw [h] at h5
  have h6 : (customExistsDetail a).data.head? = some 'C' := rfl
  rw [h6] at h5
  exact absurd h5 (by decide)

/-- When every candidate code in the stream is reserved or collides with an
active stored record, the generation loop exhausts its attempts, raises the
retry-exhausted flavor of already-exists and inserts nothing. -/
theorem create_short_code_loop_all_collide (now : Nat) (url : String)
    (expires : Option Nat) (creator : Option String) :
    ∀ (codes : List String) (s : RepoState),
      (∀ c ∈ codes, c = "search" ∨ c = "expired" ∨
        LinksRepository.get_link_by_short_code s.store c ≠ none) →
      ∃ cache', LinksService.create_short_code_loop now s url expires creator codes =
        .error (.shortLinkAlreadyExists retryExhaustedDetail,
          { store := s.store, cache := cache' }) := by
  intro codes
  induction codes with
  | nil =>
    intro s h
    exact ⟨s.cache, by simp [LinksService.create_short_code_loop]⟩
  | cons c rest ih =>
    intro s h
    by_cases hres : (c == "search" || c == "expired") = true
    · obtain ⟨cache', hc'⟩ := ih s (fun x hx => h x (List.mem_cons_of_mem c hx))
      refine ⟨cache', ?_⟩
      simp only [LinksService.create_short_code_loop, hres, if_true]
      exact hc'
    · have hres' : (c == "search" || c == "expired") = false := by
        simpa using hres
      have hcoll : LinksRepository.get_link_by_short_code s.store c ≠ none := by
        rcases h c (List.mem_cons_self c rest) with h1 | h1 | h1
        · exact absurd (by simp [h1]) hres
        · exact absurd (by simp [h1]) hres
        · exact h1
      obtain ⟨r, hr⟩ := Option.ne_none_iff_exists'.mp hcoll
      cases hcache : LinksRepository.get_original_link_from_cache s.cache c with
      | some l =>
        have hget : LinksRepository.get_link now s c = (some l, s) := by
          simp [LinksRepository.get_link, hcache]
        obtain ⟨cache', hc'⟩ := ih s (fun x hx => h x (List.mem_cons_of_mem c hx))
        refine ⟨cache', ?_⟩
        simp only [LinksService.create_short_code_loop, hres', Bool.false_eq_true,
          if_false, hget]
        exact hc'
      | none =>
        have hget : LinksRepository.get_link now s c =
            (some (toLinkInDB r),
              { s with cache := LinksRepository.set_link_to_cache now s.cache c (toLinkInDB r) }) := by
          simp [LinksRepository.get_link, hcache, hr]
        obtain ⟨cache', hc'⟩ :=
          ih { s with cache := LinksRepository.set_link_to_cache now s.cache c (toLinkInDB r) }
            (fun x hx => h x (List.mem_cons_of_mem c hx))
        refine ⟨cache', ?_⟩
        simp only [LinksService.create_short_code_loop, hres', Bool.false_eq_true,
          if_false, hget]
        exact hc'

/-- Claim C7: with no alias supplied, `create_short_code` consumes one
generated code per attempt for the configured retry count; when every
attempt collides (or is a reserved word), it surfaces the retry-exhausted
error — an already-exists exception whose detail string is distinguishable
from every plain custom-alias already-exists detail — and the failed create
inserts zero records (the store is unchanged). -/
theorem C7_retry_exhaustion (now : Nat) (s : RepoState) (url : String)
    (expires : Option Nat) (creator : Option String) (generated : List String)
    (h : ∀ c ∈ generated, c = "search" ∨ c = "expired" ∨
      LinksRepository.get_link_by_short_code s.store c ≠ none) :
    ∃ cache', LinksService.create_short_code now s url none expires creator generated =
        .error (.shortLinkAlreadyExists retryExhaustedDetail,
          { store := s.store, cache := cache' }) ∧
      ∀ a, retryExhaustedDetail ≠ customExistsDetail a := by
  obtain ⟨cache', hrun⟩ := create_short_code_loop_all_collide now url expires creator
    (generated.take GENERATE_SHORT_CODE_RETRIES) s
    (fun c hc => h c (List.take_subset _ _ hc))
  refine ⟨cache', ?_, retry_detail_ne_custom_detail⟩
  simp only [LinksService.create_short_code]
  exact hrun

/-- Record used by the C7 witness: an active record whose code every
non-reserved generated candidate collides with. -/
def rW7 : LinkRecord :=
  { link_id := 0, short_code := "c1x", original_url := "https://a.example/"
    created_at := 1, updated_at := none, created_by := none
    clicks := 0, last_used_at := none, expires_at := none, is_active := true }

/-- State used by the C7 witness. -/
def sW7 : RepoState := { store := [rW7], cache := [] }

/-- Witness for C7: five candidates — two reserved words and three
collisions — exhaust the default five retries. -/
theorem C7_retry_exhaustion_witness :
    ∃ cache', LinksService.create_short_code 30 sW7 "https://b.example/" none none none
        ["search", "c1x", "c1x", "expired", "c1x"] =
        .error (.shortLinkAlreadyExists retryExhaustedDetail,
          { store := sW7.store, cache := cache' }) ∧
      ∀ a, retryExhaustedDetail ≠ customExistsDetail a := by
  refine C7_retry_exhaustion 30 sW7 "https://b.example/" none none
    ["search", "c1x", "c1x", "expired", "c1x"] ?_
  intro c hc
  fin_cases hc
  · exact Or.inl rfl
  · exact Or.inr (Or.inr (by decide))
  · exact Or.inr (Or.inr (by decide))
  · exact Or.inr (Or.inl rfl)
  · exact Or.inr (Or.inr (by decide))

/-- `get_link` never changes the store, whatever branch it takes. -/
theorem get_link_store_eq (now : Nat) (s : RepoState) (code : String) :
    (LinksRepository.get_link now s code).snd.store = s.store := by
  cases hc : LinksRepository.get_original_link_from_cache s.cache code with
  | some l => simp [LinksRepository.get_link, hc]
  | none =>
    cases hf : LinksRepository.get_link_by_short_code s.store code with
    | some r => simp [LinksRepository.get_link, hc, hf]
    | none => simp [LinksRepository.get_link, hc, hf]

/-- Inactive record used for C4: a soft-deleted link already holding the
code `"foo"`. -/
def rC4 : LinkRecord :=
  { link_id := 0, short_code := "foo", original_url := "https://old.example/"
    created_at := 1, updated_at := some 2, created_by := some "alice"
    clicks := 9, last_used_at := none, expires_at := some 3, is_active := false }

/-- State used for C4. -/
def sC4 : RepoState := { store := [rC4], cache := [] }

/-- The record inserted by the C4 counterexample create. -/
def newC4 : LinkRecord :=
  { link_id := 1, short_code := "foo", original_url := "https://new.example/"
    created_at := 50, updated_at := none, created_by := some "bob"
    clicks := 0, last_used_at := none, expires_at := none, is_active := true }

/-- Counterexample to C4 as stated: a custom alias colliding with an
INACTIVE record does not fail with already-exists — the pre-check
(`get_link`) only sees active records and the `links` table's composite
primary key `(link_id, short_code)` accepts the duplicate, so the create
succeeds and two records now share the short code `"foo"`. -/
theorem C4_counterexample_inactive_collision_succeeds :
    LinksService.create_custom_short_code 50 sC4 "https://new.example/" "foo" none (some "bob") =
      .ok ({ short_code := "foo", expires_at := none },
        { store := [rC4, newC4], cache := [] }) ∧
    rC4.short_code = "foo" ∧
    rC4.is_active = false ∧
    newC4.short_code = "foo" := by
  refine ⟨by rfl, by rfl, by rfl, by rfl⟩

/-- Claim C4 as amended: a caller-supplied custom alias fails with
already-exists exactly when the pre-check `get_link` finds it — i.e. when
it collides with an ACTIVE record (or a cleanly-deserializing cache
entry) — and the failed attempt leaves the store unchanged (so creating the
same alias twice errors on the second attempt with the first record
unaffected); but an alias colliding only with INACTIVE records is not
rejected: the create succeeds and inserts a second record with the same
short code. -/
theorem C4_amended_custom_alias_collision (now : Nat) (s : RepoState)
    (url alias_ : String) (expires : Option Nat) (creator : Option String) :
    (∀ l, (LinksRepository.get_link now s alias_).fst = some l →
      ∃ s1, LinksService.create_custom_short_code now s url alias_ expires creator =
          .error (.shortLinkAlreadyExists (customExistsDetail alias_), s1) ∧
        s1.store = s.store) ∧
    (LinksRepository.get_original_link_from_cache s.cache alias_ = none →
      LinksRepository.get_link_by_short_code s.store alias_ = none →
      ∀ r0, r0 ∈ s.store → r0.short_code = alias_ →
        ∃ newRec, LinksService.create_custom_short_code now s url alias_ expires creator =
            .ok ({ short_code := alias_, expires_at := expires },
              { s with store := s.store ++ [newRec] }) ∧
          newRec.short_code = alias_ ∧ newRec.is_active = true ∧ r0.is_active = false) := by
  constructor
  · intro l hl
    refine ⟨(LinksRepository.get_link now s alias_).snd, ?_, get_link_store_eq now s alias_⟩
    simp only [LinksService.create_custom_short_code, hl]
  · intro hc hf r0 hr0 hcode
    have hinactive : r0.is_active = false := by
      have := List.find?_eq_none.mp hf r0 hr0
      simpa [matchesActive, hcode] using this
    have hget : LinksRepository.get_link now s alias_ = (none, s) := by
      simp [LinksRepository.get_link, hc, hf]
    refine ⟨{ link_id := s.store.length, short_code := alias_, original_url := url
              created_at := now, updated_at := none, created_by := creator
              clicks := 0, last_used_at := none, expires_at := expires, is_active := true },
      ?_, rfl, rfl, hinactive⟩
    simp only [LinksService.create_custom_short_code, hget,
      LinksRepository.create_link]

/-- Witness for the amended C4: creating `"foo"` twice errors on the second
attempt with the first record untouched, and creating over an inactive
`"foo"` succeeds with a duplicate. -/
theorem C4_amended_custom_alias_collision_witness :
    (∃ s1, LinksService.create_custom_short_code 60
        { store := [newC4], cache := [] } "https://b.example/" "foo" none (some "carol") =
        .error (.shortLinkAlreadyExists (customExistsDetail "foo"), s1) ∧
      s1.store = [newC4]) ∧
    (∃ newRec, LinksService.create_custom_short_code 50 sC4 "https://new.example/" "foo" none (some "bob") =
        .ok ({ short_code := "foo", expires_at := none },
          { sC4 with store := sC4.store ++ [newRec] }) ∧
      newRec.short_code = "foo" ∧ newRec.is_active = true ∧ rC4.is_active = false) := by
  constructor
  · exact (C4_amended_custom_alias_collision 60 { store := [newC4], cache := [] }
      "https://b.example/" "foo" none (some "carol")).1 (toLinkInDB newC4) (by rfl)
  · exact (C4_amended_custom_alias_collision 50 sC4
      "https://new.example/" "foo" none (some "bob")).2 (by rfl) (by rfl) rC4
      (by simp [sC4]) (by rfl)

/-- Record used for C5: an active link owned by `"alice"` with 5 clicks. -/
def rC5 : LinkRecord :=
  { link_id := 0, short_code := "abc", original_url := "https://a.example/"
    created_at := 10, updated_at := none, created_by := some "alice"
    clicks := 5, last_used_at := none, expires_at := none, is_active := true }

/-- State used for C5. -/
def sC5 : RepoState := { store := [rC5], cache := [] }

/-- The store row after the C5 counterexample update. -/
def updC5 : LinkRecord :=
  { rC5 with
    updated_at := some 100, clicks := 0
    original_url := "https://new.example/", expires_at := none }

/-- The cache entry value after the C5 counterexample update: the
pre-update projection with only the URL overlaid — its `clicks` is still
5. -/
def cacheValC5 : LinkInDB := { toLinkInDB rC5 with original_url := "https://new.example/" }

/-- Counterexample to C5 as stated: after a successful owner update through
the service layer the store row has `clicks = 0`, but the cache entry for
the code carries `clicks = 5` (the service re-writes the cache from the
pre-update record, overwriting the repository's correct refresh), so the
cache does not carry the reset clicks value. -/
theorem C5_counterexample_cache_stale_clicks :
    LinksService.update_link 100 sC5 "abc" (some "https://new.example/") none "alice" =
      .ok { store := [updC5], cache := [("abc", ⟨.good cacheValC5, 300⟩)] } ∧
    cacheValC5.clicks = 5 ∧
    updC5.clicks = 0 := by
  refine ⟨by rfl, by rfl, by rfl⟩

/-- Claim C5 as amended: after a successful service-layer `update_link` by
the owner (starting from a cache with no entry for the code, on a record
with no prior expiry, supplying a non-empty new URL and a future new
expiry), the store row is updated (clicks reset to zero, `updated_at`
stamped, URL and expiry set), and the cache entry carries the new
`original_url` and the new `expires_at` but RETAINS the pre-update
`clicks` value — not the reset value. -/
theorem C5_amended_service_update_cache (now t : Nat) (s : RepoState)
    (code u updated_by : String) (r : LinkRecord)
    (hc : LinksRepository.get_original_link_from_cache s.cache code = none)
    (hfind : LinksRepository.get_link_by_short_code s.store code = some r)
    (hperm : (r.created_by.isSome && r.created_by != some updated_by) = false)
    (hexp : r.expires_at = none)
    (hu : (u == "") = false)
    (ht : 0 < (t : Int) - (now : Int)) :
    ∃ s', LinksService.update_link now s code (some u) (some t) updated_by = .ok s' ∧
      LinksRepository.get_link_by_short_code s'.store code =
        some (LinksRepository.applyUpdate now (some u) (some t) r) ∧
      (LinksRepository.applyUpdate now (some u) (some t) r).clicks = 0 ∧
      (LinksRepository.applyUpdate now (some u) (some t) r).updated_at = some now ∧
      (LinksRepository.applyUpdate now (some u) (some t) r).original_url = u ∧
      (LinksRepository.applyUpdate now (some u) (some t) r).expires_at = some t ∧
      LinksRepository.get_original_link_from_cache s'.cache code =
        some { toLinkInDB r with original_url := u, expires_at := some t } ∧
      ({ toLinkInDB r with original_url := u, expires_at := some t } : LinkInDB).clicks = r.clicks := by
  -- the read-through `get_link` populates the cache with the pre-update projection
  have hset1 : LinksRepository.set_link_to_cache now s.cache code (toLinkInDB r) =
      cacheSet s.cache code ⟨.good (toLinkInDB r), EXPIRES_IN_SECONDS⟩ := by
    simp [LinksRepository.set_link_to_cache, toLinkInDB, hexp]
  have hget : LinksRepository.get_link now s code =
      (some (toLinkInDB r),
        { s with cache := cacheSet s.cache code ⟨.good (toLinkInDB r), EXPIRES_IN_SECONDS⟩ }) := by
    simp [LinksRepository.get_link, hc, hfind, hset1]
  have hlook1 : LinksRepository.get_original_link_from_cache
      (cacheSet s.cache code ⟨.good (toLinkInDB r), EXPIRES_IN_SECONDS⟩) code =
      some (toLinkInDB r) := by
    simp [LinksRepository.get_original_link_from_cache, cacheLookup_set_self]
  -- the repository update succeeds and refreshes the (just-populated) entry
  have hupd := update_link_ok now
    { s with cache := cacheSet s.cache code ⟨.good (toLinkInDB r), EXPIRES_IN_SECONDS⟩ }
    code (some u) (some t) (some updated_by) r hfind hperm
  rw [hlook1] at hupd
  have happly_exp : (LinksRepository.applyUpdate now (some u) (some t) r).expires_at = some t := rfl
  have hset2 : LinksRepository.set_link_to_cache now
      (cacheSet s.cache code ⟨.good (toLinkInDB r), EXPIRES_IN_SECONDS⟩) code
      { toLinkInDB r with
        original_url := (LinksRepository.applyUpdate now (some u) (some t) r).original_url
        expires_at := (LinksRepository.applyUpdate now (some u) (some t) r).expires_at
        clicks := (LinksRepository.applyUpdate now (some u) (some t) r).clicks } =
      cacheSet (cacheSet s.cache code ⟨.good (toLinkInDB r), EXPIRES_IN_SECONDS⟩) code
        ⟨.good { toLinkInDB r with
          original_url := (LinksRepository.applyUpdate now (some u) (some t) r).original_url
          expires_at := (LinksRepository.applyUpdate now (some u) (some t) r).expires_at
          clicks := (LinksRepository.applyUpdate now (some u) (some t) r).clicks },
          (t : Int) - (now : Int)⟩ := by
    simp only [LinksRepository.set_link_to_cache, happly_exp]
    rw [if_neg (by omega)]
  -- the full service-level run, with the final state written out
  have hrun : LinksService.update_link now s code (some u) (some t) updated_by =
      .ok { store := s.store.map (fun x =>
              if matchesActive code x then LinksRepository.applyUpdate now (some u) (some t) x else x)
            cache := cacheSet
              (cacheSet (cacheSet s.cache code ⟨.good (toLinkInDB r), EXPIRES_IN_SECONDS⟩) code
                ⟨.good { toLinkInDB r with
                  original_url := (LinksRepository.applyUpdate now (some u) (some t) r).original_url
                  expires_at := (LinksRepository.applyUpdate now (some u) (some t) r).expires_at
                  clicks := (LinksRepository.applyUpdate now (some u) (some t) r).clicks },
                  (t : Int) - (now : Int)⟩) code
              ⟨.good { toLinkInDB r with original_url := u, expires_at := some t },
                (t : Int) - (now : Int)⟩ } := by
    rw [LinksService.update_link, hget]
    simp only []
    rw [hupd]
    simp only [hu, Bool.false_eq_true, if_false, hset2]
    rw [LinksService.set_link_to_cache]
    simp only []
    rw [if_neg (by omega)]
  refine ⟨_, hrun, ?_, rfl, rfl, rfl, rfl, ?_, rfl⟩
  · -- the updated row is found in the updated store
    have hpres : ∀ a, matchesActive code a = true →
        matchesActive code (LinksRepository.applyUpdate now (some u) (some t) a) = true := by
      intro a ha
      simpa [matchesActive, LinksRepository.applyUpdate] using ha
    show LinksRepository.get_link_by_short_code
      (s.store.map (fun x => if matchesActive code x then LinksRepository.applyUpdate now (some u) (some t) x else x)) code = _
    rw [LinksRepository.get_link_by_short_code, find?_update_map _ _ hpres, ← LinksRepository.get_link_by_short_code, hfind]
    rfl
  · -- final cache entry: the service's own set wins, with the stale clicks
    simp [LinksRepository.get_original_link_from_cache, cacheLookup_set_self]

/-- Witness for the amended C5 at a concrete owner update. -/
theorem C5_amended_service_update_cache_witness :
    ∃ s', LinksService.update_link 100 sC5 "abc" (some "https://new.example/") (some 200) "alice" =
        .ok s' ∧
      LinksRepository.get_link_by_short_code s'.store "abc" =
        some (LinksRepository.applyUpdate 100 (some "https://new.example/") (some 200) rC5) ∧
      (LinksRepository.applyUpdate 100 (some "https://new.example/") (some 200) rC5).clicks = 0 ∧
      (LinksRepository.applyUpdate 100 (some "https://new.example/") (some 200) rC5).updated_at = some 100 ∧
      (LinksRepository.applyUpdate 100 (some "https://new.example/") (some 200) rC5).original_url =
        "https://new.example/" ∧
      (LinksRepository.applyUpdate 100 (some "https://new.example/") (some 200) rC5).expires_at = some 200 ∧
      LinksRepository.get_original_link_from_cache s'.cache "abc" =
        some { toLinkInDB rC5 with original_url := "https://new.example/", expires_at := some 200 } ∧
      ({ toLinkInDB rC5 with original_url := "https://new.example/", expires_at := some 200 } : LinkInDB).clicks =
        rC5.clicks := by
  exact C5_amended_service_update_cache 100 200 sC5 "abc" "https://new.example/" "alice" rC5
    (by decide) (by decide) (by decide) (by decide) (by decide) (by decide)
def lW2 : LinkInDB :=
  { short_code := "abc", original_url := "https://cached.example/"
    created_at := 1, created_by := none, clicks := 7
    last_used_at := none, expires_at := none }

/-- Store row used by the C2 witness. -/
def rW2 : LinkRecord :=
  { link_id := 0, short_code := "abc", original_url := "https://db.example/"
    created_at := 2, updated_at := none, created_by := some "alice"
    clicks := 0, last_used_at := none, expires_at := none, is_active := true }

/-- C2 witness state: cache hit. -/
def sW2hit : RepoState := { store := [rW2], cache := [("abc", ⟨.good lW2, 100⟩)] }

/-- C2 witness state: cache miss, store hit. -/
def sW2miss : RepoState := { store := [rW2], cache := [] }

/-- C2 witness state: cache miss, store miss. -/
def sW2empty : RepoState := { store := [], cache := [] }

/-- Witness for C2: the three read-through scenarios at concrete states. -/
theorem C2_get_link_read_through_witness :
    LinksRepository.get_link 5 sW2hit "abc" = (some lW2, sW2hit) ∧
    LinksRepository.get_link 5 sW2miss "abc" =
      (some (toLinkInDB rW2),
        { sW2miss with cache := LinksRepository.set_link_to_cache 5 sW2miss.cache "abc" (toLinkInDB rW2) }) ∧
    LinksRepository.get_link 5 sW2empty "abc" = (none, sW2empty) := by
  refine ⟨(C2_get_link_read_through 5 sW2hit "abc").1 lW2 (by decide),
    ((C2_get_link_read_through 5 sW2miss "abc").2 (by decide)).1 rW2 (by decide),
    ((C2_get_link_read_through 5 sW2empty "abc").2 (by decide)).2 (by decide)⟩

/-- Record used by the C10 witness: an active link created anonymously. -/
def rW10 : LinkRecord :=
  { link_id := 0, short_code := "anon1", original_url := "https://a.example/"
    created_at := 10, updated_at := none, created_by := none
    clicks := 2, last_used_at := none, expires_at := none, is_active := true }

/-- State used by the C10 witness. -/
def sW10 : RepoState := { store := [rW10], cache := [] }

/-- Witness for C10: all three operations succeed on an anonymous link with
an absent principal. -/
theorem C10_anonymous_owner_no_restriction_witness :
    (∃ x, LinksRepository.update_link 50 sW10 "anon1" none none none = .ok x ∧
      x.fst = some (LinksRepository.applyUpdate 50 none none rW10)) ∧
    (∃ s', LinksRepository.delete_link sW10 "anon1" none = .ok (true, s')) ∧
    (∃ l s', LinksRepository.get_link_stats 50 sW10 "anon1" none = .ok (some l, s')) := by
  exact C10_anonymous_owner_no_restriction 50 sW10 "anon1" none none none rW10
    (by decide) (by decide)
    (by intro l h; simp [LinksRepository.get_original_link_from_cache, cacheLookup, sW10] at h)
